import Mathlib

/-!
Shallow embedding of the plant-tracker domain core (TypeScript sources
`src/domain/types.ts`, `src/domain/dates.ts`, `src/domain/points.ts`,
`src/domain/weekly.ts`, `src/domain/colors.ts`, `src/domain/streak.ts`,
and the water-counter mutations of `src/stores/dailyStore.ts`), together
with theorems settling the specification claims about it.

Modelling conventions:
* JavaScript `Date` values are modelled by `LocalDate`: a count of local
  calendar days since the epoch plus the milliseconds elapsed within that
  day.  A `Date` is internally a single millisecond timestamp; with a
  fixed UTC offset the (day, msOfDay) pair is an equivalent decomposition,
  and `setDate`-style day shifts act uniformly on the day component, so
  month and year boundaries are crossed transparently exactly as in the
  source.  `daysFromCivil` converts a proleptic-Gregorian (year, month,
  day) triple to such a day count and is used to build concrete dates.
* JavaScript numbers holding point values are modelled by `ℚ` (the spec
  requires exact fractional arithmetic and the values involved, multiples
  of 1/4, are exact in IEEE-754 as well).
* `crypto.randomUUID()` is an effectful fresh-identifier generator; its
  result is passed to `addFoodToWeek` as an explicit `freshId` argument,
  and its collision-resistance contract becomes a freshness hypothesis.
* JavaScript array mutation does not exist in the model: every function
  below is pure, which is faithful because the source functions are
  documented and tested as non-mutating.
-/

namespace PlantTracker

/-- The closed enumeration `FOOD_CATEGORIES` of `src/domain/types.ts`. -/
inductive FoodCategory where
  | whole_grains
  | nuts_seeds
  | fruits
  | vegetables
  | legumes
  | herbs_spices
deriving DecidableEq

/-- The closed enumeration `FOOD_COLORS` of `src/domain/types.ts`. -/
inductive FoodColor where
  | red
  | orange
  | yellow
  | green
  | blue_purple
  | white_tan
deriving DecidableEq

/-- The six categories in the declaration order of the `FOOD_CATEGORIES`
object (`types.ts`). -/
def FOOD_CATEGORIES : List FoodCategory :=
  [.whole_grains, .nuts_seeds, .fruits, .vegetables, .legumes, .herbs_spices]

/-- `CATEGORY_POINT_VALUES` (`types.ts`): 1 point per category except
herbs and spices, which are worth 0.25 = 1/4. -/
def CATEGORY_POINT_VALUES : FoodCategory → ℚ
  | .whole_grains => 1
  | .nuts_seeds => 1
  | .fruits => 1
  | .vegetables => 1
  | .legumes => 1
  | .herbs_spices => 1 / 4

/-- `getPointValue` (`src/domain/points.ts`). -/
def getPointValue (category : FoodCategory) : ℚ :=
  CATEGORY_POINT_VALUES category

/-- The `FoodForPoints` interface of `src/domain/points.ts`. -/
structure FoodForPoints where
  foodId : String
  category : FoodCategory
deriving DecidableEq

/-- `calculateWeeklyPoints` (`points.ts`): `reduce` over the list with
accumulator starting at 0. -/
def calculateWeeklyPoints (foods : List FoodForPoints) : ℚ :=
  foods.foldl (fun total food => total + getPointValue food.category) 0

/-- `calculateCategoryBreakdown` (`points.ts`): a record with all six
categories initialised to 0, then `forEach` adds each food value to its
category slot.  The `Record FoodCategory number` is modelled as a total
function from `FoodCategory`. -/
def calculateCategoryBreakdown (foods : List FoodForPoints) : FoodCategory → ℚ :=
  foods.foldl
    (fun breakdown food c =>
      if c = food.category then breakdown c + getPointValue food.category
      else breakdown c)
    (fun _ => 0)

/-! ## Calendar module (`src/domain/dates.ts`) -/

/-- Model of a JavaScript `Date` in local time: `epochDay` counts local
calendar days since 1970-01-01 (a Thursday) and `msOfDay` the
milliseconds since local midnight of that day. -/
structure LocalDate where
  epochDay : Int
  msOfDay : Int
deriving DecidableEq

/-- `Date.prototype.getTime`: the single millisecond timestamp a `Date`
stores (fixed local offset folded away). -/
def LocalDate.getTime (d : LocalDate) : Int :=
  d.epochDay * 86400000 + d.msOfDay

/-- `Date.prototype.getDay`: day of week, Sunday = 0 .. Saturday = 6.
1970-01-01 (epoch day 0) was a Thursday, hence the offset 4. -/
def LocalDate.getDay (d : LocalDate) : Int :=
  (d.epochDay + 4) % 7

/-- Day count of the proleptic-Gregorian civil date (y, m, d), months
1..12 — the arithmetic performed by the `new Date(year, month, day)`
constructor.  Used to build concrete calendar dates in examples. -/
def daysFromCivil (y m d : Int) : Int :=
  let yAdj : Int := if m ≤ 2 then y - 1 else y
  let era : Int := (if 0 ≤ yAdj then yAdj else yAdj - 399) / 400
  let yoe : Int := yAdj - era * 400
  let mp : Int := if 2 < m then m - 3 else m + 9
  let doy : Int := (153 * mp + 2) / 5 + d - 1
  let doe : Int := yoe * 365 + yoe / 4 - yoe / 100 + doy
  era * 146097 + doe - 719468

/-- A local date at midnight of the civil day (y, m, d). -/
def mkDate (y m d : Int) (ms : Int) : LocalDate :=
  ⟨daysFromCivil y m d, ms⟩

/-- `getWeekStart` (`dates.ts`): copy the date, read `getDay`, subtract
6 days on Sunday and `day - 1` days otherwise (a `setDate` call, which
shifts the day component and rolls over month and year boundaries), then
`setHours(0,0,0,0)`. -/
def getWeekStart (date : LocalDate) : LocalDate :=
  let day := date.getDay
  let daysToSubtract := if day = 0 then 6 else day - 1
  { epochDay := date.epochDay - daysToSubtract, msOfDay := 0 }

/-- `getWeekEnd` (`dates.ts`): `getWeekStart` plus 6 days, time set to
23:59:59.999, i.e. 86399999 ms after midnight. -/
def getWeekEnd (date : LocalDate) : LocalDate :=
  let weekStart := getWeekStart date
  { epochDay := weekStart.epochDay + 6, msOfDay := 86399999 }

/-! ## Weekly-log module (`src/domain/weekly.ts`) -/

/-- The `WeeklyFoodInstance` interface (`weekly.ts`); the optional
`firstLoggedDate?: Date` field becomes an `Option`. -/
structure WeeklyFoodInstance where
  instanceId : String
  foodId : String
  foodName : String
  category : FoodCategory
  color : FoodColor
  isFermented : Bool
  loggedDate : LocalDate
  pointValue : ℚ
  firstLoggedDate : Option LocalDate
deriving DecidableEq

/-- `Omit<WeeklyFoodInstance, 'instanceId' | 'firstLoggedDate'>`: the
candidate food passed to `addFoodToWeek`. -/
structure NewFood where
  foodId : String
  foodName : String
  category : FoodCategory
  color : FoodColor
  isFermented : Bool
  loggedDate : LocalDate
  pointValue : ℚ
deriving DecidableEq

/-- The `AddFoodResult` interface (`weekly.ts`). -/
structure AddFoodResult where
  foods : List WeeklyFoodInstance
  isNewFood : Bool
  isDuplicateInstance : Bool
deriving DecidableEq

/-- `isDuplicateInstance` (`weekly.ts`): `some` existing food matches the
candidate on foodId, color and fermentation flag. -/
def isDuplicateInstance (existingFoods : List WeeklyFoodInstance)
    (newFood : NewFood) : Bool :=
  existingFoods.any fun food =>
    food.foodId = newFood.foodId ∧ food.color = newFood.color ∧
      food.isFermented = newFood.isFermented

/-- `getFirstLoggedDate` (`weekly.ts`): `find` the first existing food
with the given foodId and return its (optional) `firstLoggedDate` via the
optional-chaining access `existingFood?.firstLoggedDate`. -/
def getFirstLoggedDate (existingFoods : List WeeklyFoodInstance)
    (foodId : String) : Option LocalDate :=
  match existingFoods.find? (fun food => food.foodId = foodId) with
  | none => none
  | some existingFood => existingFood.firstLoggedDate

/-- `addFoodToWeek` (`weekly.ts`).  `freshId` stands for the value
produced by `crypto.randomUUID()`.  In the duplicate branch the function
returns `existingFoods` itself (in the source: the same array reference);
otherwise it returns `[...existingFoods, newInstance]`.  The JavaScript
`firstLoggedDate || newFood.loggedDate` picks `firstLoggedDate` whenever
it is defined (a `Date` object is always truthy), i.e. `Option.getD`. -/
def addFoodToWeek (existingFoods : List WeeklyFoodInstance)
    (newFood : NewFood) (freshId : String) : AddFoodResult :=
  if isDuplicateInstance existingFoods newFood then
    { foods := existingFoods, isNewFood := false, isDuplicateInstance := true }
  else
    let firstLoggedDate := getFirstLoggedDate existingFoods newFood.foodId
    let isNewFood := firstLoggedDate.isNone
    let newInstance : WeeklyFoodInstance :=
      { instanceId := freshId
        foodId := newFood.foodId
        foodName := newFood.foodName
        category := newFood.category
        color := newFood.color
        isFermented := newFood.isFermented
        loggedDate := newFood.loggedDate
        pointValue := newFood.pointValue
        firstLoggedDate := some (firstLoggedDate.getD newFood.loggedDate) }
    { foods := existingFoods ++ [newInstance]
      isNewFood := isNewFood
      isDuplicateInstance := false }

/-- `hasFoodBeenLogged` (`weekly.ts`). -/
def hasFoodBeenLogged (existingFoods : List WeeklyFoodInstance)
    (foodId : String) : Bool :=
  existingFoods.any fun food => food.foodId = foodId

/-! ## Color module (`src/domain/colors.ts`) -/

/-- The `FoodWithColor` interface (`colors.ts`). -/
structure FoodWithColor where
  color : FoodColor
  loggedDate : LocalDate
deriving DecidableEq

/-- Insertion into a JavaScript `Set` materialised as an insertion-ordered
duplicate-free list: `Set.prototype.add` keeps the first occurrence. -/
def setAdd (acc : List FoodColor) (c : FoodColor) : List FoodColor :=
  if c ∈ acc then acc else acc ++ [c]

/-- `calculateWeeklyColors` (`colors.ts`): `forEach` adds every color to a
`Set`, then `Array.from` lists the set in insertion order. -/
def calculateWeeklyColors (foods : List FoodWithColor) : List FoodColor :=
  foods.foldl (fun uniqueColors food => setAdd uniqueColors food.color) []

/-- `calculateDailyColors` (`colors.ts`): filter to entries whose logged
date matches the target by local year, month and day — with a fixed
offset that triple determines the `epochDay` and conversely — then
collect distinct colors as above. -/
def calculateDailyColors (foods : List FoodWithColor) (date : LocalDate) :
    List FoodColor :=
  foods.foldl
    (fun uniqueColors food =>
      if food.loggedDate.epochDay = date.epochDay then setAdd uniqueColors food.color
      else uniqueColors)
    []

/-- `hasAllColors` (`colors.ts`): literally `colors.length === 6`. -/
def hasAllColors (colors : List FoodColor) : Bool :=
  colors.length = 6

/-! ## Streak module (`src/domain/streak.ts`) -/

/-- The `ArchivedWeek` interface (`streak.ts`). -/
structure ArchivedWeek where
  weekStart : LocalDate
  weekEnd : LocalDate
  totalPoints : ℚ
  goalAchieved : Bool
deriving DecidableEq

/-- `areConsecutiveWeeks` (`streak.ts`): the two `weekStart` timestamps
(`getTime`) differ by exactly one week of milliseconds. -/
def areConsecutiveWeeks (recentWeek olderWeek : ArchivedWeek) : Bool :=
  recentWeek.weekStart.getTime - olderWeek.weekStart.getTime =
    7 * 24 * 60 * 60 * 1000

/-- The body of the `calculateStreak` loop from index 1 on: `prev` is the
entry of the previous iteration.  Each week must achieve the goal and be
exactly one week older than `prev`, else the loop breaks. -/
def calculateStreakGo (prev : ArchivedWeek) : List ArchivedWeek → Nat
  | [] => 0
  | week :: rest =>
    if week.goalAchieved = false then 0
    else if areConsecutiveWeeks prev week = false then 0
    else 1 + calculateStreakGo week rest

/-- `calculateStreak` (`streak.ts`): walk the most-recent-first list from
index 0; stop at the first week without `goalAchieved` or (from index 1)
not consecutive with the previous entry; count the weeks passed. -/
def calculateStreak : List ArchivedWeek → Nat
  | [] => 0
  | week :: rest =>
    if week.goalAchieved = false then 0
    else 1 + calculateStreakGo week rest

/-! ## Daily store water counter (`src/stores/dailyStore.ts`) -/

/-- Constant `WATER_MIN` (`dailyStore.ts`). -/
def WATER_MIN : Int := 0

/-- Constant `WATER_MAX` (`dailyStore.ts`). -/
def WATER_MAX : Int := 20

/-- `incrementWater` (`dailyStore.ts`), restricted to its effect on the
stored `waterGlasses` value: increment only below `WATER_MAX`. -/
def incrementWater (waterGlasses : Int) : Int :=
  if waterGlasses < WATER_MAX then waterGlasses + 1 else waterGlasses

/-- `decrementWater` (`dailyStore.ts`): decrement only above `WATER_MIN`. -/
def decrementWater (waterGlasses : Int) : Int :=
  if waterGlasses > WATER_MIN then waterGlasses - 1 else waterGlasses

/-- `setWaterGlasses` (`dailyStore.ts`): accept the new count only when it
lies within `[WATER_MIN, WATER_MAX]`, else keep the stored value. -/
def setWaterGlasses (waterGlasses count : Int) : Int :=
  if WATER_MIN ≤ count ∧ count ≤ WATER_MAX then count else waterGlasses

/-! ## Helper lemmas -/

/-- Semantic characterisation of `isDuplicateInstance`. -/
lemma isDuplicateInstance_iff (l : List WeeklyFoodInstance) (cand : NewFood) :
    isDuplicateInstance l cand = true ↔
      ∃ f ∈ l, f.foodId = cand.foodId ∧ f.color = cand.color ∧
        f.isFermented = cand.isFermented := by
  simp [isDuplicateInstance]

/-- Unfolding of `addFoodToWeek` in the non-duplicate branch. -/
lemma addFoodToWeek_eq_of_not_dup (existing : List WeeklyFoodInstance)
    (cand : NewFood) (freshId : String)
    (h : isDuplicateInstance existing cand = false) :
    addFoodToWeek existing cand freshId =
      { foods := existing ++
          [{ instanceId := freshId
             foodId := cand.foodId
             foodName := cand.foodName
             category := cand.category
             color := cand.color
             isFermented := cand.isFermented
             loggedDate := cand.loggedDate
             pointValue := cand.pointValue
             firstLoggedDate :=
               some ((getFirstLoggedDate existing cand.foodId).getD cand.loggedDate) }]
        isNewFood := (getFirstLoggedDate existing cand.foodId).isNone
        isDuplicateInstance := false } := by
  simp [addFoodToWeek, h]

/-- Unfolding of `addFoodToWeek` in the duplicate branch. -/
lemma addFoodToWeek_eq_of_dup (existing : List WeeklyFoodInstance)
    (cand : NewFood) (freshId : String)
    (h : isDuplicateInstance existing cand = true) :
    addFoodToWeek existing cand freshId =
      { foods := existing, isNewFood := false, isDuplicateInstance := true } := by
  simp [addFoodToWeek, h]

/-! ## Claim theorems -/

/-- Claim C9: every water-count mutation keeps the stored count within
[0, 20], and a request that would leave the range — incrementing at 20,
decrementing at 0, or setting a value outside [0, 20] — leaves the stored
count unchanged (no error is signalled: the functions are total). -/
theorem waterClamp_spec (w c : Int) (h0 : 0 ≤ w) (h1 : w ≤ 20) :
    (0 ≤ incrementWater w ∧ incrementWater w ≤ 20) ∧
    (0 ≤ decrementWater w ∧ decrementWater w ≤ 20) ∧
    (0 ≤ setWaterGlasses w c ∧ setWaterGlasses w c ≤ 20) ∧
    (w = 20 → incrementWater w = w) ∧
    (w = 0 → decrementWater w = w) ∧
    (c < 0 ∨ 20 < c → setWaterGlasses w c = w) := by
  unfold incrementWater decrementWater setWaterGlasses WATER_MIN WATER_MAX
  refine ⟨?_, ?_, ?_, ?_, ?_, ?_⟩ <;> (split <;> omega)

/-- Witness for C9 at the boundary values. -/
theorem waterClamp_spec_witness :
    incrementWater 20 = 20 ∧ decrementWater 0 = 0 ∧ setWaterGlasses 5 25 = 5 :=
  ⟨(waterClamp_spec 20 0 (by decide) (by decide)).2.2.2.1 rfl,
   (waterClamp_spec 0 0 (by decide) (by decide)).2.2.2.2.1 rfl,
   (waterClamp_spec 5 25 (by decide) (by decide)).2.2.2.2.2 (by decide)⟩

/-- Claim C1: if some existing instance matches the (foodId, color,
isFermented) triple of the candidate, `addFoodToWeek` returns the
original input list itself (reference identity in the source; here the
returned list is the input list) with `isNewFood = false` and
`isDuplicateInstance = true`; in particular a second call with an
identical triple, after any first call, yields exactly this outcome on
the list produced by the first call. -/
theorem addFoodToWeek_duplicate_spec (existing : List WeeklyFoodInstance)
    (cand : NewFood) (freshId : String) :
    (isDuplicateInstance existing cand = true →
      addFoodToWeek existing cand freshId =
        { foods := existing, isNewFood := false, isDuplicateInstance := true }) ∧
    (∀ (cand₂ : NewFood) (freshId₂ : String),
      cand₂.foodId = cand.foodId → cand₂.color = cand.color →
      cand₂.isFermented = cand.isFermented →
      addFoodToWeek (addFoodToWeek existing cand freshId).foods cand₂ freshId₂ =
        { foods := (addFoodToWeek existing cand freshId).foods,
          isNewFood := false, isDuplicateInstance := true }) := by
  constructor
  · intro h
    exact addFoodToWeek_eq_of_dup existing cand freshId h
  · intro cand₂ freshId₂ hid hcol hferm
    rcases hd : isDuplicateInstance existing cand with _ | _
    · rw [addFoodToWeek_eq_of_not_dup existing cand freshId hd]
      apply addFoodToWeek_eq_of_dup
      rw [isDuplicateInstance_iff]
      exact ⟨_, List.mem_append_right _ (List.mem_singleton_self _),
        by simp [hid, hcol, hferm]⟩
    · rw [addFoodToWeek_eq_of_dup existing cand freshId hd]
      apply addFoodToWeek_eq_of_dup
      rw [isDuplicateInstance_iff] at hd ⊢
      obtain ⟨f, hf, h1, h2, h3⟩ := hd
      exact ⟨f, hf, by rw [hid, hcol, hferm]; exact ⟨h1, h2, h3⟩⟩

/-- Witness for C1: a concrete duplicate submission is rejected and a
repeated identical submission after a successful add is rejected. -/
theorem addFoodToWeek_duplicate_spec_witness :
    addFoodToWeek
      [{ instanceId := "i0", foodId := "a", foodName := "Apple",
         category := .fruits, color := .red, isFermented := false,
         loggedDate := ⟨0, 0⟩, pointValue := 1, firstLoggedDate := some ⟨0, 0⟩ }]
      { foodId := "a", foodName := "Apple", category := .fruits,
        color := .red, isFermented := false, loggedDate := ⟨3, 0⟩, pointValue := 1 }
      "i1" =
      { foods := [{ instanceId := "i0", foodId := "a", foodName := "Apple",
                    category := .fruits, color := .red, isFermented := false,
                    loggedDate := ⟨0, 0⟩, pointValue := 1,
                    firstLoggedDate := some ⟨0, 0⟩ }],
        isNewFood := false, isDuplicateInstance := true } :=
  (addFoodToWeek_duplicate_spec _ _ "i1").1 (by decide)

/-- Claim C8: `addFoodToWeek` preserves the weekly invariant that no two
instances of one list share the same (foodId, color, isFermented) triple:
a duplicate candidate leaves the list untouched, and a non-duplicate
append introduces a triple not yet present. -/
theorem addFoodToWeek_noDup_spec (existing : List WeeklyFoodInstance)
    (cand : NewFood) (freshId : String)
    (h : existing.Pairwise fun a b =>
      ¬(a.foodId = b.foodId ∧ a.color = b.color ∧ a.isFermented = b.isFermented)) :
    (addFoodToWeek existing cand freshId).foods.Pairwise fun a b =>
      ¬(a.foodId = b.foodId ∧ a.color = b.color ∧ a.isFermented = b.isFermented) := by
  rcases hd : isDuplicateInstance existing cand with _ | _
  · rw [addFoodToWeek_eq_of_not_dup existing cand freshId hd]
    rw [List.pairwise_append]
    refine ⟨h, List.pairwise_singleton _ _, ?_⟩
    intro a ha b hb
    rw [List.mem_singleton] at hb
    subst hb
    intro ⟨h1, h2, h3⟩
    have : isDuplicateInstance existing cand = true := by
      rw [isDuplicateInstance_iff]
      exact ⟨a, ha, h1, h2, h3⟩
    rw [hd] at this
    exact Bool.false_ne_true this
  · rwa [addFoodToWeek_eq_of_dup existing cand freshId hd]

/-- Witness for C8 on a concrete one-element list. -/
theorem addFoodToWeek_noDup_spec_witness :
    (addFoodToWeek
      [{ instanceId := "i0", foodId := "a", foodName := "Apple",
         category := .fruits, color := .red, isFermented := false,
         loggedDate := ⟨0, 0⟩, pointValue := 1, firstLoggedDate := some ⟨0, 0⟩ }]
      { foodId := "a", foodName := "Apple", category := .fruits,
        color := .green, isFermented := false, loggedDate := ⟨3, 0⟩, pointValue := 1 }
      "i1").foods.Pairwise (fun a b =>
        ¬(a.foodId = b.foodId ∧ a.color = b.color ∧
          a.isFermented = b.isFermented)) :=
  addFoodToWeek_noDup_spec _ _ "i1" (List.pairwise_singleton _ _)

/-- Claim C5: on a non-duplicate candidate `addFoodToWeek` returns the
existing list with exactly one new instance appended at the end — the
existing elements unchanged and in order (the model is pure, so the input
list itself is never mutated) — and, provided the generated identifier
honours the collision-resistance contract of `crypto.randomUUID()`
(the `hfresh` hypothesis), the appended instance carries an identifier
shared with no existing instance. -/
theorem addFoodToWeek_append_spec (existing : List WeeklyFoodInstance)
    (cand : NewFood) (freshId : String)
    (hdup : isDuplicateInstance existing cand = false)
    (hfresh : freshId ∉ existing.map (fun f => f.instanceId)) :
    ∃ inst : WeeklyFoodInstance,
      (addFoodToWeek existing cand freshId).foods = existing ++ [inst] ∧
      inst.instanceId = freshId ∧
      inst.foodId = cand.foodId ∧ inst.color = cand.color ∧
      inst.isFermented = cand.isFermented ∧ inst.loggedDate = cand.loggedDate ∧
      (∀ f ∈ existing, f.instanceId ≠ inst.instanceId) := by
  rw [addFoodToWeek_eq_of_not_dup existing cand freshId hdup]
  refine ⟨_, rfl, rfl, rfl, rfl, rfl, rfl, ?_⟩
  intro f hf hcontra
  exact hfresh (List.mem_map.mpr ⟨f, hf, hcontra⟩)

/-- Witness for C5 on a concrete list and candidate. -/
theorem addFoodToWeek_append_spec_witness :
    ∃ inst : WeeklyFoodInstance,
      (addFoodToWeek
        [{ instanceId := "i0", foodId := "a", foodName := "Apple",
           category := .fruits, color := .red, isFermented := false,
           loggedDate := ⟨0, 0⟩, pointValue := 1, firstLoggedDate := some ⟨0, 0⟩ }]
        { foodId := "b", foodName := "Beet", category := .vegetables,
          color := .red, isFermented := false, loggedDate := ⟨3, 0⟩, pointValue := 1 }
        "i1").foods =
        [{ instanceId := "i0", foodId := "a", foodName := "Apple",
           category := .fruits, color := .red, isFermented := false,
           loggedDate := ⟨0, 0⟩, pointValue := 1, firstLoggedDate := some ⟨0, 0⟩ }]
        ++ [inst] ∧
      inst.instanceId = "i1" ∧
      inst.foodId = "b" ∧ inst.color = .red ∧
      inst.isFermented = false ∧ inst.loggedDate = ⟨3, 0⟩ ∧
      (∀ f ∈ [({ instanceId := "i0", foodId := "a", foodName := "Apple",
                 category := .fruits, color := .red, isFermented := false,
                 loggedDate := ⟨0, 0⟩, pointValue := 1,
                 firstLoggedDate := some ⟨0, 0⟩ } : WeeklyFoodInstance)],
        f.instanceId ≠ inst.instanceId) :=
  addFoodToWeek_append_spec _ _ "i1" (by decide) (by decide)

/-- Counterexample to claim C3 as stated: the source decides `isNewFood`
by `getFirstLoggedDate(...) === undefined`, which reads the optional
`firstLoggedDate` of the first instance found with the candidate foodId.
On a list holding an instance of foodId "a" whose `firstLoggedDate` is
unset, the candidate foodId "a" (different color, so not a duplicate)
appears in the list, yet `addFoodToWeek` reports `isNewFood = true`,
contradicting the claimed `isNewFood = false`. -/
theorem addFoodToWeek_firstLogged_counterexample :
    isDuplicateInstance
      [{ instanceId := "i0", foodId := "a", foodName := "Apple",
         category := .fruits, color := .red, isFermented := false,
         loggedDate := ⟨0, 0⟩, pointValue := 1, firstLoggedDate := none }]
      { foodId := "a", foodName := "Apple", category := .fruits,
        color := .green, isFermented := false, loggedDate := ⟨5, 0⟩,
        pointValue := 1 } = false ∧
    hasFoodBeenLogged
      [{ instanceId := "i0", foodId := "a", foodName := "Apple",
         category := .fruits, color := .red, isFermented := false,
         loggedDate := ⟨0, 0⟩, pointValue := 1, firstLoggedDate := none }]
      "a" = true ∧
    (addFoodToWeek
      [{ instanceId := "i0", foodId := "a", foodName := "Apple",
         category := .fruits, color := .red, isFermented := false,
         loggedDate := ⟨0, 0⟩, pointValue := 1, firstLoggedDate := none }]
      { foodId := "a", foodName := "Apple", category := .fruits,
        color := .green, isFermented := false, loggedDate := ⟨5, 0⟩,
        pointValue := 1 }
      "i1").isNewFood = true := by
  decide

/-- Claim C3, amended: restricted to instance lists satisfying the weekly
invariant that the module itself maintains — every stored instance has a
set `firstLoggedDate` for the candidate foodId, and all instances sharing
that foodId share one `firstLoggedDate` value (which is therefore the
earliest recorded one).  Under these hypotheses, a non-duplicate add of an
already-present foodId yields `isNewFood = false` and the appended
instance inherits that shared (earliest) `firstLoggedDate`, not the
candidate logged time; an absent foodId yields `isNewFood = true` and the
appended instance gets the candidate logged time. -/
theorem addFoodToWeek_firstLogged_amended (existing : List WeeklyFoodInstance)
    (cand : NewFood) (freshId : String)
    (hdup : isDuplicateInstance existing cand = false)
    (h1 : ∀ f ∈ existing, f.foodId = cand.foodId → f.firstLoggedDate ≠ none)
    (h2 : ∀ f ∈ existing, ∀ g ∈ existing, f.foodId = cand.foodId →
      g.foodId = cand.foodId → f.firstLoggedDate = g.firstLoggedDate) :
    ∃ inst : WeeklyFoodInstance,
      (addFoodToWeek existing cand freshId).foods = existing ++ [inst] ∧
      ((∃ f ∈ existing, f.foodId = cand.foodId) →
        (addFoodToWeek existing cand freshId).isNewFood = false ∧
        ∀ f ∈ existing, f.foodId = cand.foodId →
          inst.firstLoggedDate = f.firstLoggedDate) ∧
      ((∀ f ∈ existing, f.foodId ≠ cand.foodId) →
        (addFoodToWeek existing cand freshId).isNewFood = true ∧
        inst.firstLoggedDate = some cand.loggedDate) := by
  rw [addFoodToWeek_eq_of_not_dup existing cand freshId hdup]
  refine ⟨_, rfl, ?_, ?_⟩
  · rintro ⟨f, hf, hfid⟩
    have hsome : (existing.find? fun food => food.foodId = cand.foodId).isSome := by
      rw [List.find?_isSome]
      exact ⟨f, hf, by simp [hfid]⟩
    obtain ⟨g, hg⟩ := Option.isSome_iff_exists.mp hsome
    have hgmem : g ∈ existing := List.mem_of_find?_eq_some hg
    have hgid : g.foodId = cand.foodId := by
      have := List.find?_some hg
      simpa using this
    obtain ⟨d, hd⟩ := Option.ne_none_iff_exists'.mp (h1 g hgmem hgid)
    constructor
    · simp [getFirstLoggedDate, hg, hd]
    · intro f₂ hf₂ hfid₂
      have heq := h2 f₂ hf₂ g hgmem hfid₂ hgid
      simp [getFirstLoggedDate, hg, hd, heq]
  · intro hnone
    have hfind : (existing.find? fun food => food.foodId = cand.foodId) = none := by
      rw [List.find?_eq_none]
      intro f hf
      simpa using hnone f hf
    constructor <;> simp [getFirstLoggedDate, hfind]

/-- Witness for the amended C3: a concrete well-formed list where the
candidate foodId is already present; the add is not new and inherits the
recorded first-logged date. -/
theorem addFoodToWeek_firstLogged_amended_witness :
    (addFoodToWeek
      [{ instanceId := "i0", foodId := "a", foodName := "Apple",
         category := .fruits, color := .red, isFermented := false,
         loggedDate := ⟨0, 0⟩, pointValue := 1, firstLoggedDate := some ⟨0, 0⟩ }]
      { foodId := "a", foodName := "Apple", category := .fruits,
        color := .green, isFermented := false, loggedDate := ⟨5, 0⟩,
        pointValue := 1 }
      "i1").isNewFood = false := by
  obtain ⟨inst, hfoods, hpresent, habsent⟩ :=
    addFoodToWeek_firstLogged_amended
      [{ instanceId := "i0", foodId := "a", foodName := "Apple",
         category := .fruits, color := .red, isFermented := false,
         loggedDate := ⟨0, 0⟩, pointValue := 1, firstLoggedDate := some ⟨0, 0⟩ }]
      { foodId := "a", foodName := "Apple", category := .fruits,
        color := .green, isFermented := false, loggedDate := ⟨5, 0⟩,
        pointValue := 1 }
      "i1" (by decide) (by decide) (by decide)
  exact (hpresent ⟨_, List.mem_singleton_self _, rfl⟩).1

/-- Counterexample to claim C6 as stated: `hasAllColors` tests the raw
list length, not the distinct count.  The list of six red entries has
exactly one distinct color, yet `hasAllColors` returns true. -/
theorem hasAllColors_counterexample :
    hasAllColors [.red, .red, .red, .red, .red, .red] = true ∧
    ([FoodColor.red, .red, .red, .red, .red, .red]).dedup.length = 1 := by
  decide

/-- Claim C6, amended: `hasAllColors` returns true iff the length of its
input equals exactly 6; on duplicate-free lists — the shape produced by
the color aggregation functions — this coincides with the number of
distinct colors equalling exactly 6 (still a cardinality check, not a
membership check against the canonical six values). -/
theorem hasAllColors_length_spec (colors : List FoodColor) :
    (hasAllColors colors = true ↔ colors.length = 6) ∧
    (colors.Nodup → (hasAllColors colors = true ↔ colors.dedup.length = 6)) := by
  constructor
  · simp [hasAllColors]
  · intro h
    rw [List.dedup_eq_self.mpr h]
    simp [hasAllColors]

/-- Witness for C6 (amended) on the duplicate-free full-color list. -/
theorem hasAllColors_length_spec_witness :
    hasAllColors [.red, .orange, .yellow, .green, .blue_purple, .white_tan] = true :=
  ((hasAllColors_length_spec
      [.red, .orange, .yellow, .green, .blue_purple, .white_tan]).2
    (by decide)).mpr (by decide)

/-- Sum of a category-indexed table over the six categories. -/
def sumOverCategories (b : FoodCategory → ℚ) : ℚ :=
  (FOOD_CATEGORIES.map b).sum

/-- Folding the reduce step of `calculateWeeklyPoints` from any
accumulator adds the list total. -/
lemma weeklyPoints_foldl (l : List FoodForPoints) (t : ℚ) :
    l.foldl (fun total food => total + getPointValue food.category) t =
      t + (l.map fun f => getPointValue f.category).sum := by
  induction l generalizing t with
  | nil => simp
  | cons f fs ih => simp [ih]; ring

/-- One breakdown update adds its point value to the table total. -/
lemma sumOverCategories_update (b : FoodCategory → ℚ) (f : FoodForPoints) :
    sumOverCategories (fun c =>
      if c = f.category then b c + getPointValue f.category else b c) =
      sumOverCategories b + getPointValue f.category := by
  cases hc : f.category <;>
    simp [sumOverCategories, FOOD_CATEGORIES, hc] <;> ring

/-- Folding the breakdown updates adds the list total to the table sum. -/
lemma breakdown_foldl_sum (l : List FoodForPoints) (b : FoodCategory → ℚ) :
    sumOverCategories
      (l.foldl (fun breakdown food c =>
        if c = food.category then breakdown c + getPointValue food.category
        else breakdown c) b) =
      sumOverCategories b + (l.map fun f => getPointValue f.category).sum := by
  induction l generalizing b with
  | nil => simp
  | cons f fs ih =>
    rw [List.foldl_cons, ih, sumOverCategories_update]
    simp
    ring

/-- A category with no food in the list keeps its accumulator entry. -/
lemma breakdown_foldl_absent (l : List FoodForPoints) (b : FoodCategory → ℚ)
    (c : FoodCategory) (h : ∀ f ∈ l, f.category ≠ c) :
    (l.foldl (fun breakdown food c =>
      if c = food.category then breakdown c + getPointValue food.category
      else breakdown c) b) c = b c := by
  induction l generalizing b with
  | nil => rfl
  | cons f fs ih =>
    rw [List.foldl_cons, ih _ fun g hg => h g (List.mem_cons_of_mem _ hg)]
    show (if c = f.category then b c + getPointValue f.category else b c) = b c
    rw [if_neg (fun hcf => h f (List.mem_cons_self _ _) hcf.symm)]

/-- Claim C4: the breakdown values summed over all six categories equal
the weekly points total exactly (both are exact rationals here, mirroring
the exactness of 0.25 increments in the source), every category is
present in the breakdown with value 0 when no food of that category
occurs, and the empty list yields total 0.  Proven for every food list,
in particular for lists reduced to one entry per unique foodId. -/
theorem pointsBreakdown_spec (foods : List FoodForPoints) :
    sumOverCategories (calculateCategoryBreakdown foods) =
      calculateWeeklyPoints foods ∧
    (∀ c : FoodCategory, c ∈ FOOD_CATEGORIES) ∧
    (∀ c : FoodCategory, (∀ f ∈ foods, f.category ≠ c) →
      calculateCategoryBreakdown foods c = 0) ∧
    calculateWeeklyPoints [] = 0 := by
  refine ⟨?_, ?_, ?_, rfl⟩
  · rw [calculateCategoryBreakdown, calculateWeeklyPoints, breakdown_foldl_sum,
      weeklyPoints_foldl]
    simp [sumOverCategories, FOOD_CATEGORIES]
  · intro c
    cases c <;> simp [FOOD_CATEGORIES]
  · intro c hc
    rw [calculateCategoryBreakdown, breakdown_foldl_absent _ _ _ hc]

/-- Witness for C4: a concrete mixed list; the legume slot of the
breakdown is 0 because no legume occurs. -/
theorem pointsBreakdown_spec_witness :
    calculateCategoryBreakdown
      [⟨"a", .fruits⟩, ⟨"b", .herbs_spices⟩] .legumes = 0 :=
  (pointsBreakdown_spec [⟨"a", .fruits⟩, ⟨"b", .herbs_spices⟩]).2.2.1
    .legumes (by decide)

/-- `setAdd` preserves duplicate-freeness. -/
lemma setAdd_nodup (acc : List FoodColor) (c : FoodColor) (h : acc.Nodup) :
    (setAdd acc c).Nodup := by
  rw [setAdd]
  split
  · exact h
  · rw [← List.concat_eq_append]
    exact h.concat (by assumption)

/-- Membership in `setAdd`. -/
lemma setAdd_mem (acc : List FoodColor) (c x : FoodColor) :
    x ∈ setAdd acc c ↔ x ∈ acc ∨ x = c := by
  rw [setAdd]
  split
  · refine ⟨Or.inl, ?_⟩
    rintro (hx | rfl)
    · exact hx
    · assumption
  · simp

/-- Invariant of the weekly color fold: the accumulator stays
duplicate-free and collects exactly the colors seen. -/
lemma weeklyColors_foldl (l : List FoodWithColor) (acc : List FoodColor)
    (h : acc.Nodup) :
    (l.foldl (fun uniqueColors food => setAdd uniqueColors food.color) acc).Nodup ∧
    ∀ c, c ∈ l.foldl (fun uniqueColors food => setAdd uniqueColors food.color) acc ↔
      c ∈ acc ∨ ∃ f ∈ l, f.color = c := by
  induction l generalizing acc with
  | nil => simpa using h
  | cons f fs ih =>
    rw [List.foldl_cons]
    obtain ⟨ihn, ihm⟩ := ih (setAdd acc f.color) (setAdd_nodup acc f.color h)
    refine ⟨ihn, fun c => ?_⟩
    rw [ihm c, setAdd_mem]
    constructor
    · rintro ((hc | rfl) | ⟨g, hg, rfl⟩)
      · exact Or.inl hc
      · exact Or.inr ⟨f, List.mem_cons_self _ _, rfl⟩
      · exact Or.inr ⟨g, List.mem_cons_of_mem _ hg, rfl⟩
    · rintro (hc | ⟨g, hg, rfl⟩)
      · exact Or.inl (Or.inl hc)
      · rcases List.mem_cons.mp hg with rfl | hg₂
        · exact Or.inl (Or.inr rfl)
        · exact Or.inr ⟨g, hg₂, rfl⟩

/-- Invariant of the daily color fold: like the weekly one but filtered
to entries logged on the target calendar day. -/
lemma dailyColors_foldl (l : List FoodWithColor) (date : LocalDate)
    (acc : List FoodColor) (h : acc.Nodup) :
    (l.foldl (fun uniqueColors food =>
      if food.loggedDate.epochDay = date.epochDay then setAdd uniqueColors food.color
      else uniqueColors) acc).Nodup ∧
    ∀ c, c ∈ l.foldl (fun uniqueColors food =>
        if food.loggedDate.epochDay = date.epochDay then setAdd uniqueColors food.color
        else uniqueColors) acc ↔
      c ∈ acc ∨ ∃ f ∈ l, f.loggedDate.epochDay = date.epochDay ∧ f.color = c := by
  induction l generalizing acc with
  | nil => simpa using h
  | cons f fs ih =>
    rw [List.foldl_cons]
    by_cases hf : f.loggedDate.epochDay = date.epochDay
    · rw [if_pos hf]
      obtain ⟨ihn, ihm⟩ := ih (setAdd acc f.color) (setAdd_nodup acc f.color h)
      refine ⟨ihn, fun c => ?_⟩
      rw [ihm c, setAdd_mem]
      constructor
      · rintro ((hc | rfl) | ⟨g, hg, hgd, rfl⟩)
        · exact Or.inl hc
        · exact Or.inr ⟨f, List.mem_cons_self _ _, hf, rfl⟩
        · exact Or.inr ⟨g, List.mem_cons_of_mem _ hg, hgd, rfl⟩
      · rintro (hc | ⟨g, hg, hgd, rfl⟩)
        · exact Or.inl (Or.inl hc)
        · rcases List.mem_cons.mp hg with rfl | hg₂
          · exact Or.inl (Or.inr rfl)
          · exact Or.inr ⟨g, hg₂, hgd, rfl⟩
    · rw [if_neg hf]
      obtain ⟨ihn, ihm⟩ := ih acc h
      refine ⟨ihn, fun c => ?_⟩
      rw [ihm c]
      constructor
      · rintro (hc | ⟨g, hg, hgd, rfl⟩)
        · exact Or.inl hc
        · exact Or.inr ⟨g, List.mem_cons_of_mem _ hg, hgd, rfl⟩
      · rintro (hc | ⟨g, hg, hgd, rfl⟩)
        · exact Or.inl hc
        · rcases List.mem_cons.mp hg with rfl | hg₂
          · exact absurd hgd hf
          · exact Or.inr ⟨g, hg₂, hgd, rfl⟩

/-- Claim C10: the lists returned by `calculateWeeklyColors` and (for any
date) `calculateDailyColors` hold each color at most once, and a color is
a member exactly when some input entry — for the daily variant, one
logged on the same local calendar day — has that color; consequently the
length-based `hasAllColors` test on these outputs is a genuine
distinct-count check. -/
theorem colors_distinct_spec (foods : List FoodWithColor) (date : LocalDate) :
    (calculateWeeklyColors foods).Nodup ∧
    (∀ c, c ∈ calculateWeeklyColors foods ↔ ∃ f ∈ foods, f.color = c) ∧
    (calculateDailyColors foods date).Nodup ∧
    (∀ c, c ∈ calculateDailyColors foods date ↔
      ∃ f ∈ foods, f.loggedDate.epochDay = date.epochDay ∧ f.color = c) ∧
    (hasAllColors (calculateWeeklyColors foods) = true ↔
      (calculateWeeklyColors foods).dedup.length = 6) := by
  obtain ⟨hwn, hwm⟩ := weeklyColors_foldl foods [] List.nodup_nil
  obtain ⟨hdn, hdm⟩ := dailyColors_foldl foods date [] List.nodup_nil
  refine ⟨hwn, fun c => ?_, hdn, fun c => ?_, ?_⟩
  · rw [calculateWeeklyColors, hwm c]
    simp
  · rw [calculateDailyColors, hdm c]
    simp
  · rw [calculateWeeklyColors, List.dedup_eq_self.mpr hwn]
    simp [hasAllColors]

/-- Claim C7: `getWeekStart` returns local midnight of the Monday on or
before the given date — on a Sunday it goes back 6 days, otherwise back
`dayOfWeek - 1` days, with the time zeroed; the result is a Monday at
most 6 days in the past.  `getWeekStart` of a Sunday equals
`getWeekStart` of the Monday six days earlier, `getWeekStart` of a Monday
is local midnight of that same day, and `getWeekEnd` is that Monday plus
6 days at 23:59:59.999.  Day arithmetic acts on the day count directly,
so month and year boundaries are crossed transparently (the witness
crosses a year boundary). -/
theorem getWeekStart_spec (d : LocalDate) :
    (getWeekStart d).getDay = 1 ∧
    (getWeekStart d).msOfDay = 0 ∧
    (getWeekStart d).epochDay ≤ d.epochDay ∧
    d.epochDay - (getWeekStart d).epochDay < 7 ∧
    (d.getDay = 0 →
      getWeekStart d = getWeekStart ⟨d.epochDay - 6, d.msOfDay⟩ ∧
      LocalDate.getDay ⟨d.epochDay - 6, d.msOfDay⟩ = 1) ∧
    (d.getDay = 1 → getWeekStart d = ⟨d.epochDay, 0⟩) ∧
    getWeekEnd d = ⟨(getWeekStart d).epochDay + 6, 86399999⟩ := by
  obtain ⟨e, m⟩ := d
  have hb0 : (0 : Int) ≤ (e + 4) % 7 := Int.emod_nonneg _ (by norm_num)
  have hb7 : ((e + 4) % 7 : Int) < 7 := Int.emod_lt_of_pos _ (by norm_num)
  refine ⟨?_, rfl, ?_, ?_, ?_, ?_, rfl⟩
  · show (e - (if (e + 4) % 7 = 0 then 6 else (e + 4) % 7 - 1) + 4) % 7 = 1
    split <;> omega
  · show e - (if (e + 4) % 7 = 0 then 6 else (e + 4) % 7 - 1) ≤ e
    split <;> omega
  · show e - (e - (if (e + 4) % 7 = 0 then 6 else (e + 4) % 7 - 1)) < 7
    split <;> omega
  · intro h0
    replace h0 : (e + 4) % 7 = 0 := h0
    have h1 : ((e - 6 + 4) % 7 : Int) = 1 := by omega
    constructor
    · show (⟨e - (if (e + 4) % 7 = 0 then 6 else (e + 4) % 7 - 1), 0⟩ : LocalDate) =
        ⟨e - 6 - (if (e - 6 + 4) % 7 = 0 then 6 else (e - 6 + 4) % 7 - 1), 0⟩
      rw [if_pos h0, h1, if_neg one_ne_zero]
      norm_num
    · exact h1
  · intro h1
    replace h1 : (e + 4) % 7 = 1 := h1
    show (⟨e - (if (e + 4) % 7 = 0 then 6 else (e + 4) % 7 - 1), 0⟩ : LocalDate) =
      ⟨e, 0⟩
    rw [h1, if_neg one_ne_zero]
    norm_num

/-- Witness for C7: Sunday 2026-01-04 belongs to the week of Monday
2025-12-29, across the year boundary. -/
theorem getWeekStart_spec_witness :
    getWeekStart (mkDate 2026 1 4 37230000) = mkDate 2025 12 29 0 := by
  have h := (getWeekStart_spec (mkDate 2026 1 4 37230000)).2.2.2.2.1 (by decide)
  have hmon := (getWeekStart_spec (mkDate 2025 12 29 0)).2.2.2.2.2.1 (by decide)
  have hshift : (⟨(mkDate 2026 1 4 37230000).epochDay - 6,
      (mkDate 2026 1 4 37230000).msOfDay⟩ : LocalDate) =
      mkDate 2025 12 29 37230000 := by decide
  have hsame : getWeekStart (mkDate 2025 12 29 37230000) =
      getWeekStart (mkDate 2025 12 29 0) := by decide
  rw [h.1, hshift, hsame, hmon]
  decide

/-- The property a prefix of the archived-week list must satisfy to count
toward the streak, read off the claim: starting below `prev`, every week
achieves the goal and each is exactly one week older than the entry just
before it. -/
def goodFrom (prev : ArchivedWeek) : List ArchivedWeek → Bool
  | [] => true
  | week :: rest => week.goalAchieved && areConsecutiveWeeks prev week && goodFrom week rest

/-- A whole list (or prefix) is a valid streak run: every entry achieves
the goal and each entry after the first is exactly one week older than
its predecessor. -/
def goodRun : List ArchivedWeek → Bool
  | [] => true
  | week :: rest => week.goalAchieved && goodFrom week rest

/-- The loop remainder never counts more weeks than remain. -/
lemma calculateStreakGo_le (prev : ArchivedWeek) (l : List ArchivedWeek) :
    calculateStreakGo prev l ≤ l.length := by
  induction l generalizing prev with
  | nil => exact Nat.le_refl 0
  | cons w rest ih =>
    rw [calculateStreakGo]
    split
    · exact Nat.zero_le _
    · split
      · exact Nat.zero_le _
      · have := ih w
        simp only [List.length_cons]
        omega

/-- The prefix the loop remainder counts is a valid run below `prev`. -/
lemma calculateStreakGo_take (prev : ArchivedWeek) (l : List ArchivedWeek) :
    goodFrom prev (l.take (calculateStreakGo prev l)) = true := by
  induction l generalizing prev with
  | nil => rfl
  | cons w rest ih =>
    rw [calculateStreakGo]
    split
    · rfl
    · split
      · rfl
      · rename_i hg hc
        rw [Nat.add_comm, List.take_succ_cons, goodFrom]
        simp only [Bool.and_eq_true]
        refine ⟨⟨?_, ?_⟩, ih w⟩
        · cases hgoal : w.goalAchieved
          · exact absurd hgoal hg
          · rfl
        · cases hcons : areConsecutiveWeeks prev w
          · exact absurd hcons hc
          · rfl

/-- No valid run below `prev` is longer than what the loop remainder
counts. -/
lemma calculateStreakGo_max (l : List ArchivedWeek) (prev : ArchivedWeek)
    (n : Nat) (hn : n ≤ l.length)
    (hgood : goodFrom prev (l.take n) = true) :
    n ≤ calculateStreakGo prev l := by
  induction l generalizing prev n with
  | nil => exact hn
  | cons w rest ih =>
    cases n with
    | zero => exact Nat.zero_le _
    | succ m =>
      rw [List.take_succ_cons, goodFrom] at hgood
      simp only [Bool.and_eq_true] at hgood
      obtain ⟨⟨hg, hc⟩, hrest⟩ := hgood
      rw [calculateStreakGo, if_neg (by simp [hg]), if_neg (by simp [hc])]
      have hmle : m ≤ rest.length := by
        simp only [List.length_cons] at hn
        omega
      have := ih w m hmle hrest
      omega

/-- Claim C2: `calculateStreak` returns the length of the longest prefix
of the most-recent-first archived-week list in which every entry achieves
the goal and each entry after the first starts exactly 7 days before the
entry just before it; the week breaking the goal or the 7-day adjacency
is never counted, and the empty list gives 0.  The three conjuncts state:
the result never exceeds the list length, the counted prefix is a valid
run, and every valid prefix is no longer than the result. -/
theorem calculateStreak_spec (l : List ArchivedWeek) :
    calculateStreak l ≤ l.length ∧
    goodRun (l.take (calculateStreak l)) = true ∧
    (∀ n, n ≤ l.length → goodRun (l.take n) = true → n ≤ calculateStreak l) ∧
    calculateStreak [] = 0 := by
  cases l with
  | nil => exact ⟨Nat.le_refl 0, rfl, fun n hn _ => hn, rfl⟩
  | cons w rest =>
    cases hg : w.goalAchieved with
    | false =>
      have hstreak : calculateStreak (w :: rest) = 0 := by
        rw [calculateStreak, if_pos hg]
      rw [hstreak]
      refine ⟨Nat.zero_le _, rfl, ?_, rfl⟩
      intro n hn hgood
      cases n with
      | zero => exact Nat.le_refl 0
      | succ m =>
        rw [List.take_succ_cons, goodRun] at hgood
        simp only [Bool.and_eq_true] at hgood
        rw [hg] at hgood
        exact absurd hgood.1 (by simp)
    | true =>
      have hstreak : calculateStreak (w :: rest) = 1 + calculateStreakGo w rest := by
        rw [calculateStreak, if_neg (by simp [hg])]
      rw [hstreak]
      refine ⟨?_, ?_, ?_, rfl⟩
      · have := calculateStreakGo_le w rest
        simp only [List.length_cons]
        omega
      · rw [Nat.add_comm, List.take_succ_cons, goodRun]
        simp only [Bool.and_eq_true]
        exact ⟨hg, calculateStreakGo_take w rest⟩
      · intro n hn hgood
        cases n with
        | zero => exact Nat.zero_le _
        | succ m =>
          rw [List.take_succ_cons, goodRun] at hgood
          simp only [Bool.and_eq_true] at hgood
          have hmle : m ≤ rest.length := by
            simp only [List.length_cons] at hn
            omega
          have := calculateStreakGo_max rest w m hmle hgood.2
          omega

/-- Witness for C2: three adjacent goal-achieved weeks, most recent
first (Mondays 2025-01-27, 2025-01-20, 2025-01-13), give a streak of at
least 3 — hence, with the upper bound, exactly 3. -/
theorem calculateStreak_spec_witness :
    3 ≤ calculateStreak
      [{ weekStart := mkDate 2025 1 27 0, weekEnd := mkDate 2025 2 2 86399999,
         totalPoints := 31, goalAchieved := true },
       { weekStart := mkDate 2025 1 20 0, weekEnd := mkDate 2025 1 26 86399999,
         totalPoints := 30, goalAchieved := true },
       { weekStart := mkDate 2025 1 13 0, weekEnd := mkDate 2025 1 19 86399999,
         totalPoints := 32, goalAchieved := true }] :=
  (calculateStreak_spec _).2.2.1 3 (by decide) (by decide)

end PlantTracker
